import Mathlib

/-!
# Verification of the `ProcessGameState` pipeline (process_game_state.py)

Shallow embedding of the data-loading-and-enrichment pipeline and the three
analytic queries of `ProcessGameState`, together with proofs of the spec's
claims about them.

Modelling conventions:

* A pandas `DataFrame` is a `DataFrame`: a list of column names (the schema)
  plus a list of typed `Row`s.  Accessing a column that is not in the schema
  is a Python `KeyError`; fallible computations return `Except PyErr`.
* Numeric values (`x`, `y`, `z`, `seconds`) are exact rationals `ℚ`.
* The shapely containment primitive is external library code; it is modelled
  from the spec (boundary-exclusive point-in-polygon), see `Polygon.contains`.
-/

deriving instance DecidableEq for Except

/-- A 2D point, as an exact rational pair. -/
abbrev Pt := ℚ × ℚ

/-- The boundary polygon: the ordered vertex list supplied at construction
(shapely `Polygon(boundary_vertices)`; no validation is performed). -/
structure Polygon where
  vertices : List Pt
deriving DecidableEq

/-- The closed edges of the polygon: consecutive vertex pairs, wrapping
around from the last vertex back to the first. -/
def Polygon.edges (poly : Polygon) : List (Pt × Pt) :=
  match poly.vertices with
  | [] => []
  | v :: vs => List.zip (v :: vs) (vs ++ [v])

/-- `p` lies on the closed segment from `a` to `b` (collinear and within the
bounding box of the two endpoints). -/
def onSegment (p a b : Pt) : Bool :=
  (b.1 - a.1) * (p.2 - a.2) == (b.2 - a.2) * (p.1 - a.1)
    && decide (min a.1 b.1 ≤ p.1) && decide (p.1 ≤ max a.1 b.1)
    && decide (min a.2 b.2 ≤ p.2) && decide (p.2 ≤ max a.2 b.2)

/-- The horizontal ray from `p` to the left crosses the edge `e` (standard
even-odd ray-casting edge test). -/
def rayCrosses (p : Pt) (e : Pt × Pt) : Bool :=
  (decide (e.1.2 > p.2) != decide (e.2.2 > p.2))
    && decide (p.1 < (e.2.1 - e.1.1) * (p.2 - e.1.2) / (e.2.2 - e.1.2) + e.1.1)

/-- `p` lies on the boundary of the polygon (on some closed edge). -/
def Polygon.onBoundary (poly : Polygon) (p : Pt) : Bool :=
  poly.edges.any (fun e => onSegment p e.1 e.2)

/-- Even-odd interior test: the parity of the number of edges crossed by a
horizontal ray from `p`. -/
def Polygon.evenOddInside (poly : Polygon) (p : Pt) : Bool :=
  poly.edges.foldl (fun acc e => acc != rayCrosses p e) false

/-- Modelled from the spec: the shapely `Polygon.contains` containment
primitive (external library code, not in the repository source).  Per the
spec it is boundary-exclusive: true exactly for points strictly inside the
polygon, with points on an edge or at a vertex counting as outside. -/
def Polygon.contains (poly : Polygon) (p : Pt) : Bool :=
  poly.evenOddInside p && !poly.onBoundary p

/-- One inventory item: a duck-typed record whose `class` field (`cls`) may
be absent (`none` models a dict without the `'class'` key). -/
structure Item where
  cls : Option String
deriving DecidableEq

/-- One player-tick record.  All fields are typed slots; whether a column is
actually present in the dataset is recorded by `DataFrame.cols` (the values
of the two derived slots are only meaningful once enrichment has run and
added their column names to the schema). -/
structure Row where
  x : ℚ
  y : ℚ
  z : ℚ
  team : String
  side : String
  seconds : ℚ
  inventory : Option (List Item)
  in_boundary : Bool
  weapon_classes : List String
deriving DecidableEq

/-- A pandas DataFrame: schema (column-name list) plus rows. -/
structure DataFrame where
  cols : List String
  rows : List Row
deriving DecidableEq

/-- A raised Python exception: `KeyError` (missing column) or
`ValueError`/other (message). -/
inductive PyErr where
  | keyError (key : String)
  | valueError (msg : String)
deriving DecidableEq

/-- Python `repr` of a string key, as it appears in `str(KeyError(k))`:
the key wrapped in single quotes. -/
def pyKeyRepr (k : String) : String := "\x27" ++ k ++ "\x27"

/-- A value returned by a query: a float (here `ℚ`) or a message string. -/
inductive PyVal where
  | num (q : ℚ)
  | msg (s : String)
deriving DecidableEq

/-- The enriched analysis object: the enriched table plus the polygon. -/
structure ProcessGameState where
  data : DataFrame
  polygon : Polygon
deriving DecidableEq

/-- `filter_rows_in_boundary`: for every row set
`in_boundary := polygon.contains(Point(x, y)) and 285 <= z <= 421`
(`np.logical_and` of the containment test and the z-range test).  Accessing
the `x`, `y` or `z` column when absent raises `KeyError`. -/
def filter_rows_in_boundary (poly : Polygon) (df : DataFrame) :
    Except PyErr DataFrame :=
  if df.cols.contains "x" = false then .error (.keyError "x")
  else if df.cols.contains "y" = false then .error (.keyError "y")
  else if df.cols.contains "z" = false then .error (.keyError "z")
  else .ok
    { cols := df.cols ++ ["in_boundary"]
      rows := df.rows.map (fun r =>
        { r with in_boundary :=
            poly.contains (r.x, r.y)
              && (decide (r.z ≥ 285) && decide (r.z ≤ 421)) }) }

/-- The helper `extract_classes`: `[]` for a null inventory; otherwise the
list `[item['class'] for item in inventory_list]`, aborted to `none` by the
`KeyError` on the first item lacking the `class` key. -/
def classesOf : List Item → Option (List String)
  | [] => some []
  | it :: rest =>
    match it.cls with
    | none => none
    | some c =>
      match classesOf rest with
      | none => none
      | some cs => some (c :: cs)

/-- `extract_classes(inventory_list)`: null inventory gives `[]`; a
`KeyError` while building the class list is caught and gives `[]`. -/
def extract_classes (inventory_list : Option (List Item)) : List String :=
  match inventory_list with
  | none => []
  | some l =>
    match classesOf l with
    | none => []
    | some cs => cs

/-- `extract_weapon_classes`: raises `ValueError` if the `inventory` column
is absent from the schema; otherwise adds the `weapon_classes` column with
`extract_classes` applied to each row's inventory. -/
def extract_weapon_classes (df : DataFrame) : Except PyErr DataFrame :=
  if df.cols.contains "inventory" = false then
    .error (.valueError ("Missing " ++ pyKeyRepr "inventory"
      ++ " column in DataFrame"))
  else .ok
    { cols := df.cols ++ ["weapon_classes"]
      rows := df.rows.map (fun r =>
        { r with weapon_classes := extract_classes r.inventory }) }

/-- `ProcessGameState.__init__`: load the table, build the polygon, then run
`filter_rows_in_boundary` and `extract_weapon_classes` in that order; any
exception raised by either step aborts construction. -/
def ProcessGameState.init (parquet_data : DataFrame)
    (boundary_vertices : List Pt) : Except PyErr ProcessGameState := do
  let poly : Polygon := ⟨boundary_vertices⟩
  let d1 ← filter_rows_in_boundary poly parquet_data
  let d2 ← extract_weapon_classes d1
  .ok { data := d2, polygon := poly }

/-- Arithmetic mean of a list of rationals (`pandas.Series.mean`):
sum divided by length. -/
def listMean (l : List ℚ) : ℚ := l.sum / l.length

/-- The `(team, side)` row subset:
`self.data[(self.data['team'] == team) & (self.data['side'] == side)]`. -/
def matchingRows (gs : ProcessGameState) (team side : String) : List Row :=
  gs.data.rows.filter (fun r => r.team == team && r.side == side)

/-- `team_strategy(team, side)`: the sentinel string on an empty
`(team, side)` subset, otherwise the mean of `in_boundary` (`True` = 1,
`False` = 0) over the subset.  Accessing a missing column raises. -/
def team_strategy (gs : ProcessGameState) (team side : String) :
    Except PyErr PyVal :=
  if gs.data.cols.contains "team" = false then .error (.keyError "team")
  else if gs.data.cols.contains "side" = false then .error (.keyError "side")
  else
    let team_data := matchingRows gs team side
    if team_data.isEmpty = true then
      .ok (.msg "No data available for the given team and side")
    else if gs.data.cols.contains "in_boundary" = false then
      .error (.keyError "in_boundary")
    else .ok (.num (listMean (team_data.map
      (fun r => if r.in_boundary = true then (1 : ℚ) else 0))))

/-- The per-row weapon count of `average_timer_with_weapons`:
`sum([weapon in x for weapon in weapon_types])` — one summand per entry of
`weapon_types`, each contributing 1 when it is a member of the row's
`weapon_classes` list `x`. -/
def weapon_count (weapon_types : List String) (x : List String) : Nat :=
  (weapon_types.map (fun weapon => if x.contains weapon then 1 else 0)).sum

/-- Stated from the claim's words (for comparison with `weapon_count`):
the number of DISTINCT requested `weapon_types` entries that are members of
the row's `weapon_classes`. -/
def distinct_weapon_count (weapon_types : List String) (x : List String) :
    Nat :=
  (weapon_types.dedup.filter (fun weapon => x.contains weapon)).length

/-- `team_data.assign(weapon_count=...)`: pair every `(team, side)` row with
its weapon count for the requested `weapon_types`. -/
def withCounts (team_data : List Row) (weapon_types : List String) :
    List (Row × Nat) :=
  team_data.map (fun r => (r, weapon_count weapon_types r.weapon_classes))

/-- `team_data[team_data['weapon_count'] >= min_weapons]` (the weapon count
is a Python int, compared with the possibly negative `min_weapons`). -/
def filterAtLeast (team_data : List (Row × Nat)) (min_weapons : Int) :
    List (Row × Nat) :=
  team_data.filter (fun rw => decide ((rw.2 : Int) ≥ min_weapons))

/-- The guard of the relaxation `while` loop:
`filtered_data.empty and min_weapons > 0`. -/
def loopGuard (s : List (Row × Nat) × Int) : Bool :=
  s.1.isEmpty && decide (s.2 > 0)

/-- Fuel-indexed iteration of the relaxation loop body
(`min_weapons -= 1; filtered_data = team_data[... >= min_weapons]`),
stopping as soon as the guard fails. -/
def loopIter (team_data : List (Row × Nat)) :
    Nat → List (Row × Nat) × Int → List (Row × Nat) × Int
  | 0, s => s
  | k + 1, s =>
    if loopGuard s then
      loopIter team_data k (filterAtLeast team_data (s.2 - 1), s.2 - 1)
    else s

/-- The relaxation `while` loop of `average_timer_with_weapons`, entered
with the current `filtered_data` and `min_weapons`.  Since each iteration
decrements `min_weapons` by exactly 1 and the guard requires
`min_weapons > 0`, the loop performs at most `min_weapons.toNat`
iterations; it is embedded with that iteration budget, and
`loopRun_fix` proves it satisfies the `while` loop's fixpoint equation. -/
def loopRun (team_data filtered : List (Row × Nat)) (min_weapons : Int) :
    List (Row × Nat) × Int :=
  loopIter team_data min_weapons.toNat (filtered, min_weapons)

/-- The `try:` block of `average_timer_with_weapons` (lines 70–76): filter
to `(team, side)`, assign `weapon_count`, filter by `>= min_weapons`, run
the relaxation loop; the result is the final `filtered_data`. -/
def average_timer_try (gs : ProcessGameState) (team side : String)
    (min_weapons : Int) (weapon_types : List String) :
    Except PyErr (List (Row × Nat)) :=
  if gs.data.cols.contains "team" = false then .error (.keyError "team")
  else if gs.data.cols.contains "side" = false then .error (.keyError "side")
  else if gs.data.cols.contains "weapon_classes" = false then
    .error (.keyError "weapon_classes")
  else
    let team_data := withCounts (matchingRows gs team side) weapon_types
    .ok (loopRun team_data (filterAtLeast team_data min_weapons)
      min_weapons).1

/-- `average_timer_with_weapons(team, side, min_weapons, weapon_types)`:
the `try:` block guarded by `except KeyError` (message naming the key) and
`except Exception` (generic message); the final emptiness check and
`filtered_data['seconds'].mean()` are OUTSIDE the `try:` block, so the
`seconds` column access can still raise. -/
def average_timer_with_weapons (gs : ProcessGameState) (team side : String)
    (min_weapons : Int) (weapon_types : List String) : Except PyErr PyVal :=
  match average_timer_try gs team side min_weapons weapon_types with
  | .error (.keyError k) =>
    .ok (.msg ("Error: " ++ pyKeyRepr k ++ " not found in data"))
  | .error (.valueError s) => .ok (.msg ("Unexpected error: " ++ s))
  | .ok filtered_data =>
    if filtered_data.isEmpty = true then
      .ok (.msg "No data available for the given conditions")
    else if gs.data.cols.contains "seconds" = false then
      .error (.keyError "seconds")
    else .ok (.num (listMean (filtered_data.map (fun rw => rw.1.seconds))))

/-- The `heatmap_coordinates` row subset: exact match on `team` and `side`
and `in_boundary` true. -/
def matchingInZone (gs : ProcessGameState) (team side : String) : List Row :=
  gs.data.rows.filter
    (fun r => r.team == team && r.side == side && r.in_boundary)

/-- Minimum of a list of rationals (`numpy.nanmin` over the series);
0 on the empty list (never used there). -/
def listMin : List ℚ → ℚ
  | [] => 0
  | v :: vs => vs.foldl min v

/-- Maximum of a list of rationals (`numpy.nanmax` over the series);
0 on the empty list (never used there). -/
def listMax : List ℚ → ℚ
  | [] => 0
  | v :: vs => vs.foldl max v

/-- Which of the ten half-open intervals `(mn + i*w, mn + (i+1)*w]` holds
`v` (assuming `v` lies in their union; the first interval is chosen for
everything at or below its right edge). -/
def binSel (mn w v : ℚ) : Fin 10 :=
  if v ≤ mn + 1 * w then 0 else if v ≤ mn + 2 * w then 1
  else if v ≤ mn + 3 * w then 2 else if v ≤ mn + 4 * w then 3
  else if v ≤ mn + 5 * w then 4 else if v ≤ mn + 6 * w then 5
  else if v ≤ mn + 7 * w then 6 else if v ≤ mn + 8 * w then 7
  else if v ≤ mn + 9 * w then 8 else 9

/-- `pd.cut(col, 10)` bin assignment with the column range `[lo, hi]`:
10 equal-width right-closed bins over `[lo, hi]`, the leftmost edge pushed
0.1% left so the minimum is included; a zero-width range is first padded by
0.1% (or 0.001 at zero) on both sides.  Values outside the edges get no bin
(`NaN`, dropped by the subsequent `groupby`). -/
def cutBinIdx (lo hi v : ℚ) : Option (Fin 10) :=
  if lo = hi then
    let mn := lo - (if lo = 0 then 1 / 1000 else |lo| / 1000)
    let mx := hi + (if hi = 0 then 1 / 1000 else |hi| / 1000)
    if v ≤ mn ∨ mx < v then none else some (binSel mn ((mx - mn) / 10) v)
  else
    if v ≤ lo - (hi - lo) / 1000 ∨ hi < v then none
    else some (binSel lo ((hi - lo) / 10) v)

/-- The `(x-bin, y-bin)` cell of a row under `pd.cut` on the x-range
`[xlo, xhi]` and y-range `[ylo, yhi]`; `none` when either coordinate is
unbinned (`NaN` keys are dropped by `groupby`). -/
def cellIdx (xlo xhi ylo yhi : ℚ) (r : Row) : Option (Fin 10 × Fin 10) :=
  match cutBinIdx xlo xhi r.x, cutBinIdx ylo yhi r.y with
  | some i, some j => some (i, j)
  | _, _ => none

/-- The unstacked `groupby(...).size()` grid: for each `(x-bin, y-bin)`
pair, the number of filtered rows falling in that cell.  The bin edges come
from the filtered subset's own x/y minima and maxima. -/
def heatGrid (team_data : List Row) : Fin 10 → Fin 10 → Nat :=
  fun i j => (team_data.filter (fun r =>
    cellIdx (listMin (team_data.map Row.x)) (listMax (team_data.map Row.x))
      (listMin (team_data.map Row.y)) (listMax (team_data.map Row.y)) r
      == some (i, j))).length

/-- The result of `heatmap_coordinates`: the sentinel message or the
2D grid of counts, exposed as total lookup by `(x-bin, y-bin)`. -/
inductive HeatResult where
  | msg (s : String)
  | grid (g : Fin 10 → Fin 10 → Nat)

/-- `heatmap_coordinates(team, side)`: filter to `(team, side)` rows with
`in_boundary` true; sentinel if empty; otherwise the 10×10 grid of counts
with data-dependent bin edges. -/
def heatmap_coordinates (gs : ProcessGameState) (team side : String) :
    Except PyErr HeatResult :=
  if gs.data.cols.contains "team" = false then .error (.keyError "team")
  else if gs.data.cols.contains "side" = false then .error (.keyError "side")
  else if gs.data.cols.contains "in_boundary" = false then
    .error (.keyError "in_boundary")
  else
    let team_data := matchingInZone gs team side
    if team_data.isEmpty = true then
      .ok (.msg "No data available for the given team and side")
    else if gs.data.cols.contains "x" = false then .error (.keyError "x")
    else if gs.data.cols.contains "y" = false then .error (.keyError "y")
    else .ok (.grid (heatGrid team_data))

/-! ## Concrete test data

A square boundary polygon and a small dataset exercising the boundary
cases named by the spec: the z-range endpoints, a point on a polygon edge,
a point at a polygon vertex, a null inventory, and an item without the
`class` key. -/

/-- The square boundary polygon used by the concrete test data. -/
def sqVerts : List Pt := [(0, 0), (10, 0), (10, 10), (0, 10)]

/-- Point (5,5) is strictly inside the square. -/
lemma sq_contains_inside : (⟨sqVerts⟩ : Polygon).contains (5, 5) = true := by
  norm_num [Polygon.contains, Polygon.evenOddInside, Polygon.onBoundary,
    Polygon.edges, sqVerts, rayCrosses, onSegment, List.foldl,
    List.any, List.zip, List.zipWith]

/-- Point (0,5), on the left edge of the square, counts as outside. -/
lemma sq_contains_edge : (⟨sqVerts⟩ : Polygon).contains (0, 5) = false := by
  norm_num [Polygon.contains, Polygon.evenOddInside, Polygon.onBoundary,
    Polygon.edges, sqVerts, rayCrosses, onSegment, List.foldl,
    List.any, List.zip, List.zipWith]

/-- Point (0,0), a vertex of the square, counts as outside. -/
lemma sq_contains_vertex : (⟨sqVerts⟩ : Polygon).contains (0, 0) = false := by
  norm_num [Polygon.contains, Polygon.evenOddInside, Polygon.onBoundary,
    Polygon.edges, sqVerts, rayCrosses, onSegment, List.foldl,
    List.any, List.zip, List.zipWith]

/-- The vertex evaluation restated at the `Prod` zero normal form. -/
lemma sq_contains_vertex0 : (⟨sqVerts⟩ : Polygon).contains 0 = false := by
  have : (0 : Pt) = ((0 : ℚ), (0 : ℚ)) := rfl
  rw [this, sq_contains_vertex]

/-- Raw row: inside the square footprint but z just below 285. -/
def rowA : Row :=
  ⟨5, 5, 284999 / 1000, "A", "T", 10, none, false, []⟩

/-- Raw row: inside the square footprint, z at the lower endpoint 285. -/
def rowB : Row :=
  ⟨5, 5, 285, "A", "T", 20, some [⟨some "rifle"⟩], false, []⟩

/-- Raw row: inside the square footprint, z at the upper endpoint 421;
its second inventory item lacks the `class` key. -/
def rowC : Row :=
  ⟨5, 5, 421, "A", "T", 30, some [⟨some "rifle"⟩, ⟨none⟩], false, []⟩

/-- Raw row: exactly on the left edge of the square, z in range. -/
def rowD : Row :=
  ⟨0, 5, 300, "B", "T", 40, some [], false, []⟩

/-- Raw row: exactly at a vertex of the square, z in range. -/
def rowE : Row :=
  ⟨0, 0, 300, "B", "CT", 50, none, false, []⟩

/-- The raw concrete dataset. -/
def dfC : DataFrame :=
  ⟨["x", "y", "z", "team", "side", "seconds", "inventory"],
   [rowA, rowB, rowC, rowD, rowE]⟩

/-- `rowA` after enrichment: z is below the range, so not in the zone. -/
def rowAE : Row := { rowA with in_boundary := false, weapon_classes := [] }

/-- `rowB` after enrichment: inside and z = 285, in the zone; one rifle. -/
def rowBE : Row := { rowB with in_boundary := true,
                               weapon_classes := ["rifle"] }

/-- `rowC` after enrichment: inside and z = 421, in the zone; the item
without a `class` key collapses the extraction to the empty list. -/
def rowCE : Row := { rowC with in_boundary := true, weapon_classes := [] }

/-- `rowD` after enrichment: on the edge counts as outside the zone. -/
def rowDE : Row := { rowD with in_boundary := false, weapon_classes := [] }

/-- `rowE` after enrichment: at a vertex counts as outside the zone. -/
def rowEE : Row := { rowE with in_boundary := false, weapon_classes := [] }

/-- The expected enriched state for `dfC` and the square polygon. -/
def gsC : ProcessGameState :=
  ⟨⟨["x", "y", "z", "team", "side", "seconds", "inventory",
     "in_boundary", "weapon_classes"],
    [rowAE, rowBE, rowCE, rowDE, rowEE]⟩,
   ⟨sqVerts⟩⟩

/-- Constructing from the concrete dataset succeeds and enriches every row
as expected. -/
lemma init_dfC : ProcessGameState.init dfC sqVerts = .ok gsC := by
  norm_num [ProcessGameState.init, filter_rows_in_boundary,
    extract_weapon_classes, dfC, gsC, rowA, rowB, rowC, rowD, rowE,
    rowAE, rowBE, rowCE, rowDE, rowEE,
    sq_contains_inside, sq_contains_edge, sq_contains_vertex, sq_contains_vertex0,
    extract_classes, classesOf, Except.bind, Bind.bind]

/-! ## Helper lemmas -/

/-- Membership gives a true `List.contains` test. -/
lemma contains_of_mem {l : List String} {a : String} (h : a ∈ l) :
    l.contains a = true := by
  simpa [List.contains] using List.elem_iff.mpr h

/-- Once the loop still has a false guard, iterating does nothing. -/
lemma loopIter_of_guard_false (td : List (Row × Nat)) (k : Nat)
    (s : List (Row × Nat) × Int) (h : loopGuard s = false) :
    loopIter td k s = s := by
  cases k <;> simp [loopIter, h]

/-- With iteration budget at least `s.2.toNat`, the loop runs until its
guard fails. -/
lemma loopIter_guard_false (td : List (Row × Nat)) :
    ∀ (k : Nat) (s : List (Row × Nat) × Int), s.2.toNat ≤ k →
      loopGuard (loopIter td k s) = false := by
  intro k
  induction k with
  | zero =>
    intro s hs
    have hm : ¬ (0 : Int) < s.2 := by omega
    simp [loopIter, loopGuard, decide_eq_false hm]
  | succ k ih =>
    intro s hs
    by_cases hg : loopGuard s = true
    · have hm : (0 : Int) < s.2 := by
        have := hg
        simp [loopGuard, Bool.and_eq_true, decide_eq_true_eq] at this
        exact this.2
      simp only [loopIter, if_pos hg]
      exact ih _ (by simp; omega)
    · have hg' : loopGuard s = false := by
        revert hg; cases loopGuard s <;> simp
      simp [loopIter, hg']

/-- The embedded loop satisfies the `while` loop's fixpoint equation:
test the guard; if it holds, decrement `min_weapons`, re-filter and
continue, else exit with the current state. -/
lemma loopRun_fix (td f : List (Row × Nat)) (m : Int) :
    loopRun td f m =
      (if loopGuard (f, m) then loopRun td (filterAtLeast td (m - 1)) (m - 1)
       else (f, m)) := by
  by_cases hg : loopGuard (f, m) = true
  · have hm : (0 : Int) < m := by
      have := hg
      simp [loopGuard, Bool.and_eq_true, decide_eq_true_eq] at this
      exact this.2
    have htn : m.toNat = (m - 1).toNat + 1 := by omega
    rw [if_pos hg]
    show loopIter td m.toNat (f, m) = _
    rw [htn]
    simp only [loopIter, if_pos hg]
    rfl
  · have hg' : loopGuard (f, m) = false := by
      revert hg; cases loopGuard (f, m) <;> simp
    rw [if_neg hg]
    exact loopIter_of_guard_false td _ _ hg'

/-- On exit from the relaxation loop the guard is false. -/
lemma loopRun_guard_false (td f : List (Row × Nat)) (m : Int) :
    loopGuard (loopRun td f m) = false :=
  loopIter_guard_false td m.toNat (f, m) (le_refl _)

/-- At threshold 0 the weapon-count filter keeps every row (a count is a
non-negative int). -/
lemma filterAtLeast_zero (td : List (Row × Nat)) : filterAtLeast td 0 = td :=
  List.filter_eq_self.mpr (fun a _ => by simp [Int.natCast_nonneg])

/-- The invariant of the relaxation loop, entered at `filterAtLeast td m`:
the final `filtered_data` is the filter at the final `min_weapons` value
`m'`, with `m' ≤ m`, `m'` non-negative whenever `m` was, the final filter
non-empty unless `m'` hit zero or below, and every threshold strictly
between `m'` and `m` filtering to empty. -/
lemma loopRun_spec (td : List (Row × Nat)) :
    ∀ (n : Nat) (m : Int), m.toNat ≤ n →
      (loopRun td (filterAtLeast td m) m).1 =
          filterAtLeast td (loopRun td (filterAtLeast td m) m).2 ∧
      (loopRun td (filterAtLeast td m) m).2 ≤ m ∧
      (0 ≤ m → 0 ≤ (loopRun td (filterAtLeast td m) m).2) ∧
      ((loopRun td (filterAtLeast td m) m).1 ≠ [] ∨
        (loopRun td (filterAtLeast td m) m).2 ≤ 0) ∧
      (∀ k : Int, (loopRun td (filterAtLeast td m) m).2 < k → k ≤ m →
        filterAtLeast td k = []) := by
  intro n
  induction n with
  | zero =>
    intro m hm
    have hm0 : ¬ (0 : Int) < m := by omega
    have hg : loopGuard (filterAtLeast td m, m) = false := by
      simp [loopGuard, decide_eq_false hm0]
    rw [loopRun_fix, if_neg (by simp [hg])]
    refine ⟨rfl, le_refl _, fun h => h, Or.inr (by omega), ?_⟩
    intro k h1 h2
    omega
  | succ n ih =>
    intro m hm
    by_cases hg : loopGuard (filterAtLeast td m, m) = true
    · obtain ⟨hempty, hm0⟩ : filterAtLeast td m = [] ∧ (0 : Int) < m := by
        have := hg
        simp [loopGuard, Bool.and_eq_true, decide_eq_true_eq,
          List.isEmpty_iff] at this
        exact this
      rw [loopRun_fix, if_pos hg]
      have ihm := ih (m - 1) (by omega)
      refine ⟨ihm.1, by omega, fun _ => by
          have := ihm.2.2.1 (by omega); omega, ihm.2.2.2.1, ?_⟩
      intro k h1 h2
      by_cases hk : k ≤ m - 1
      · exact ihm.2.2.2.2 k h1 hk
      · have : k = m := by omega
        rw [this]
        exact hempty
    · have hg' : loopGuard (filterAtLeast td m, m) = false := by
        revert hg; cases loopGuard (filterAtLeast td m, m) <;> simp
      have hne : filterAtLeast td m ≠ [] ∨ m ≤ 0 := by
        have := hg'
        simp only [loopGuard, Bool.and_eq_false_iff] at this
        rcases this with h | h
        · exact Or.inl (by simpa [List.isEmpty_iff] using
            (by simp [h] : (filterAtLeast td m).isEmpty = false))
        · exact Or.inr (by
            have : decide ((0:Int) < m) = false := by simpa using h
            have := of_decide_eq_false this
            omega)
      rw [loopRun_fix, if_neg (by simp [hg'])]
      exact ⟨rfl, le_refl _, fun h => h, hne, fun k h1 h2 => by omega⟩

/-- If some item lacks the `class` key, building the class list aborts. -/
lemma classesOf_eq_none {l : List Item} (h : ∃ it ∈ l, it.cls = none) :
    classesOf l = none := by
  induction l with
  | nil => rcases h with ⟨it, hmem, _⟩; cases hmem
  | cons a t ih =>
    rcases h with ⟨it, hmem, hcls⟩
    rcases List.mem_cons.mp hmem with rfl | hm
    · simp [classesOf, hcls]
    · cases ha : a.cls with
      | none => simp [classesOf, ha]
      | some c => simp [classesOf, ha, ih ⟨it, hm, hcls⟩]

/-- If every item has the `class` key, the class list is the in-order list
of those keys. -/
lemma classesOf_eq_some {l : List Item} (h : ∀ it ∈ l, it.cls ≠ none) :
    classesOf l = some (l.filterMap Item.cls) := by
  induction l with
  | nil => simp [classesOf]
  | cons a t ih =>
    cases ha : a.cls with
    | none => exact absurd ha (h a (List.mem_cons_self a t))
    | some c =>
      have ht := ih (fun it hm => h it (List.mem_cons_of_mem _ hm))
      simp [classesOf, ha, ht, List.filterMap_cons]

/-- Sum of the `in_boundary` indicator over rows that are all in the zone:
the number of rows. -/
lemma sum_indicator_all_true (td : List Row)
    (h : ∀ r ∈ td, r.in_boundary = true) :
    (td.map (fun r => if r.in_boundary = true then (1 : ℚ) else 0)).sum
      = td.length := by
  induction td with
  | nil => simp
  | cons a t ih =>
    have ha := h a (List.mem_cons_self a t)
    have ht := ih (fun r hr => h r (List.mem_cons_of_mem _ hr))
    simp [ha, ht]
    ring

/-- Sum of the `in_boundary` indicator over rows that are all outside the
zone: zero. -/
lemma sum_indicator_all_false (td : List Row)
    (h : ∀ r ∈ td, r.in_boundary = false) :
    (td.map (fun r => if r.in_boundary = true then (1 : ℚ) else 0)).sum
      = 0 := by
  induction td with
  | nil => simp
  | cons a t ih =>
    have ha := h a (List.mem_cons_self a t)
    have ht := ih (fun r hr => h r (List.mem_cons_of_mem _ hr))
    simp [ha, ht]

/-- A false `List.contains` test gives non-membership. -/
lemma not_mem_of_contains_false {l : List String} {a : String}
    (h : l.contains a = false) : ¬ a ∈ l := by
  intro hm
  rw [contains_of_mem hm] at h
  cases h

/-- `List.contains` only looks at membership, so deduplication does not
change it. -/
lemma contains_dedup (x : List String) (w : String) :
    x.dedup.contains w = x.contains w := by
  by_cases h : w ∈ x
  · rw [contains_of_mem h, contains_of_mem (List.mem_dedup.mpr h)]
  · cases h1 : x.dedup.contains w with
    | false =>
      cases h2 : x.contains w with
      | false => rfl
      | true => exact absurd (List.elem_iff.mp h2) h
    | true =>
      exact absurd (List.mem_dedup.mp (List.elem_iff.mp h1)) h

/-- The per-row weapon count is the number of `weapon_types` entries
(counted with their multiplicity in `weapon_types`) that are members of
`x`. -/
lemma weapon_count_eq_countP (wts x : List String) :
    weapon_count wts x = wts.countP (fun w => x.contains w) := by
  induction wts with
  | nil => rfl
  | cons a t ih =>
    have ih' : (t.map (fun weapon => if x.contains weapon then 1 else 0)).sum
        = t.countP (fun w => x.contains w) := ih
    simp only [weapon_count, List.map_cons, List.sum_cons,
      List.countP_cons, ih']
    cases h : x.contains a
    · simp
    · simp [Nat.add_comm]

/-- Minimum of a fold is below the seed and every element. -/
lemma foldl_min_le (l : List ℚ) :
    ∀ a : ℚ, l.foldl min a ≤ a ∧ ∀ v ∈ l, l.foldl min a ≤ v := by
  induction l with
  | nil => intro a; exact ⟨le_refl _, by simp⟩
  | cons x t ih =>
    intro a
    refine ⟨le_trans (ih (min a x)).1 (min_le_left a x), ?_⟩
    intro v hv
    rcases List.mem_cons.mp hv with rfl | hm
    · exact le_trans (ih (min a v)).1 (min_le_right a v)
    · exact (ih (min a x)).2 v hm

/-- Maximum of a fold is above the seed and every element. -/
lemma le_foldl_max (l : List ℚ) :
    ∀ a : ℚ, a ≤ l.foldl max a ∧ ∀ v ∈ l, v ≤ l.foldl max a := by
  induction l with
  | nil => intro a; exact ⟨le_refl _, by simp⟩
  | cons x t ih =>
    intro a
    refine ⟨le_trans (le_max_left a x) (ih (max a x)).1, ?_⟩
    intro v hv
    rcases List.mem_cons.mp hv with rfl | hm
    · exact le_trans (le_max_right a v) (ih (max a v)).1
    · exact (ih (max a x)).2 v hm

/-- The column minimum bounds every column value from below. -/
lemma listMin_le {l : List ℚ} {v : ℚ} (h : v ∈ l) : listMin l ≤ v := by
  cases l with
  | nil => cases h
  | cons x t =>
    rcases List.mem_cons.mp h with rfl | hm
    · exact (foldl_min_le t v).1
    · exact (foldl_min_le t x).2 v hm

/-- The column maximum bounds every column value from above. -/
lemma le_listMax {l : List ℚ} {v : ℚ} (h : v ∈ l) : v ≤ listMax l := by
  cases l with
  | nil => cases h
  | cons x t =>
    rcases List.mem_cons.mp h with rfl | hm
    · exact (le_foldl_max t v).1
    · exact (le_foldl_max t x).2 v hm

/-- Every value inside the column range `[lo, hi]` receives a bin. -/
lemma cutBinIdx_isSome {lo hi v : ℚ} (h1 : lo ≤ v) (h2 : v ≤ hi) :
    (cutBinIdx lo hi v).isSome = true := by
  unfold cutBinIdx
  by_cases he : lo = hi
  · rw [if_pos he]
    have hd : (0 : ℚ) < (if lo = 0 then 1 / 1000 else |lo| / 1000) := by
      by_cases h0 : lo = 0
      · rw [if_pos h0]; norm_num
      · rw [if_neg h0]
        have : (0 : ℚ) < |lo| := abs_pos.mpr h0
        linarith
    have hd' : (0 : ℚ) < (if hi = 0 then 1 / 1000 else |hi| / 1000) := by
      by_cases h0 : hi = 0
      · rw [if_pos h0]; norm_num
      · rw [if_neg h0]
        have : (0 : ℚ) < |hi| := abs_pos.mpr h0
        linarith
    rw [if_neg (by push_neg; constructor <;> linarith)]
    rfl
  · have hlt : lo < hi := lt_of_le_of_ne (le_trans h1 h2) he
    have hadj : (0 : ℚ) < (hi - lo) / 1000 := by
      have : (0 : ℚ) < hi - lo := by linarith
      linarith
    rw [if_neg he, if_neg (by push_neg; constructor <;> linarith)]
    rfl

/-- A list whose elements all classify into some cell of a finite type is
partitioned by the cells: the cell counts sum to the list length. -/
lemma sum_filter_cell {α : Type} (l : List α)
    (f : α → Option (Fin 10 × Fin 10))
    (hf : ∀ a ∈ l, (f a).isSome = true) :
    (∑ b : Fin 10 × Fin 10, (l.filter (fun a => f a == some b)).length)
      = l.length := by
  induction l with
  | nil => simp
  | cons a t ih =>
    have ha := hf a (List.mem_cons_self a t)
    obtain ⟨b0, hb0⟩ := Option.isSome_iff_exists.mp ha
    have ht : ∀ x ∈ t, (f x).isSome = true :=
      fun x hx => hf x (List.mem_cons_of_mem _ hx)
    have hsplit : ∀ b : Fin 10 × Fin 10,
        (t.filter (fun x => f x == some b) |>.length) +
          (if b = b0 then 1 else 0)
        = (List.filter (fun x => f x == some b) (a :: t)).length := by
      intro b
      by_cases hb : b = b0
      · subst hb
        simp [List.filter_cons, hb0]
      · have hne : (f a == some b) = false := by
          rw [hb0, beq_eq_false_iff_ne]
          intro hh
          exact hb (Option.some_inj.mp hh).symm
        simp [List.filter_cons, hne, hb]
    calc (∑ b : Fin 10 × Fin 10,
            (List.filter (fun x => f x == some b) (a :: t)).length)
        = ∑ b : Fin 10 × Fin 10, ((t.filter (fun x => f x == some b)).length
            + (if b = b0 then 1 else 0)) :=
          Finset.sum_congr rfl (fun b _ => (hsplit b).symm)
      _ = (∑ b : Fin 10 × Fin 10,
              (t.filter (fun x => f x == some b)).length)
            + ∑ b : Fin 10 × Fin 10, (if b = b0 then 1 else 0) :=
          Finset.sum_add_distrib
      _ = t.length + 1 := by
          rw [ih ht, Finset.sum_ite_eq' Finset.univ b0 (fun _ => 1)]
          simp
      _ = (a :: t).length := rfl

/-- When both coordinates receive bins, the row classifies into a cell. -/
lemma cellIdx_isSome {xlo xhi ylo yhi : ℚ} {r : Row}
    (hx : (cutBinIdx xlo xhi r.x).isSome = true)
    (hy : (cutBinIdx ylo yhi r.y).isSome = true) :
    (cellIdx xlo xhi ylo yhi r).isSome = true := by
  obtain ⟨i, hi⟩ := Option.isSome_iff_exists.mp hx
  obtain ⟨j, hj⟩ := Option.isSome_iff_exists.mp hy
  simp [cellIdx, hi, hj]

/-- Non-membership gives a false `List.contains` test. -/
lemma contains_false_of_not_mem {l : List String} {a : String}
    (h : ¬ a ∈ l) : l.contains a = false := by
  cases hc : l.contains a
  · rfl
  · exact absurd (List.elem_iff.mp hc) h

/-- `List.contains` distributes over append. -/
lemma contains_append (l₁ l₂ : List String) (a : String) :
    (l₁ ++ l₂).contains a = (l₁.contains a || l₂.contains a) := by
  by_cases h : a ∈ l₁ ++ l₂
  · rw [contains_of_mem h]
    rcases List.mem_append.mp h with h1 | h2
    · rw [contains_of_mem h1]
      simp
    · rw [contains_of_mem h2]
      simp
  · have h1 : ¬ a ∈ l₁ := fun hh => h (List.mem_append.mpr (Or.inl hh))
    have h2 : ¬ a ∈ l₂ := fun hh => h (List.mem_append.mpr (Or.inr hh))
    rw [contains_false_of_not_mem h, contains_false_of_not_mem h1,
      contains_false_of_not_mem h2]
    rfl

/-! ## Further concrete states for the query-layer claims -/

/-- Enriched query-test row: team A / side T, in the zone, 10 seconds,
carrying a rifle and a pistol. -/
def qRow1 : Row := ⟨1, 1, 300, "A", "T", 10, none, true, ["rifle", "pistol"]⟩

/-- Enriched query-test row: team A / side T, outside the zone, 20 seconds,
carrying a pistol. -/
def qRow2 : Row := ⟨2, 3, 300, "A", "T", 20, none, false, ["pistol"]⟩

/-- Enriched query-test row: team A / side T, in the zone, 30 seconds,
carrying nothing. -/
def qRow3 : Row := ⟨4, 2, 300, "A", "T", 30, none, true, []⟩

/-- Enriched query-test row: team B / side CT, in the zone, 40 seconds. -/
def qRow4 : Row := ⟨1, 1, 300, "B", "CT", 40, none, true, ["rifle"]⟩

/-- A fully enriched state with the standard schema, for exercising the
query layer. -/
def gsQ : ProcessGameState :=
  ⟨⟨["x", "y", "z", "team", "side", "seconds", "inventory",
     "in_boundary", "weapon_classes"],
    [qRow1, qRow2, qRow3, qRow4]⟩, ⟨sqVerts⟩⟩

/-- A state whose table lacks the `seconds` column but has everything the
weapon-timer query's guarded region touches. -/
def gsNoSec : ProcessGameState :=
  ⟨⟨["team", "side", "weapon_classes"], [qRow1]⟩, ⟨sqVerts⟩⟩

/-- A state whose table lacks the `team` column. -/
def gsNoTeam : ProcessGameState := ⟨⟨["side"], []⟩, ⟨sqVerts⟩⟩

/-- A dataset that has the `inventory` column but no `x` column. -/
def dfNoX : DataFrame := ⟨["inventory"], [rowA]⟩

/-! ## The claims -/

/-- C10: the relaxation loop of `average_timer_with_weapons` terminates for
every input: for every table and every integer `min_weapons` (including
values violating the documented `int ≥ 0` precondition) the embedded loop
satisfies the `while` loop's fixpoint equation — while the guard
`filtered_data.empty and min_weapons > 0` holds, decrement `min_weapons`
by exactly 1 and re-filter — and the guard is false at the state it
returns, reached after at most `min_weapons.toNat` iterations. -/
theorem loop_terminates (td f : List (Row × Nat)) (m : Int) :
    loopRun td f m =
      (if loopGuard (f, m) then loopRun td (filterAtLeast td (m - 1)) (m - 1)
       else (f, m)) ∧
    loopGuard (loopRun td f m) = false :=
  ⟨loopRun_fix td f m, loopRun_guard_false td f m⟩

/-- C9 counterexample: with requested weapon_types `['a', 'a']` and a row
whose weapon_classes is `['a']`, the code's weapon count is 2 — one per
occurrence in the requested list — whereas the claimed "number of distinct
requested entries present" is 1. -/
theorem weapon_count_multiplicity_cex :
    weapon_count ["a", "a"] ["a"] = 2 ∧
    distinct_weapon_count ["a", "a"] ["a"] = 1 ∧
    ¬ weapon_count ["a", "a"] ["a"]
        = distinct_weapon_count ["a", "a"] ["a"] := by
  decide

/-- C9 amended: each row's weapon count equals the number of entries of
`weapon_types` — counted with their multiplicity in `weapon_types` — that
are members of the row's weapon_classes; multiplicity inside
weapon_classes is irrelevant (membership-test semantics), so deduplicating
weapon_classes never changes the count. -/
theorem weapon_count_spec (wts x : List String) :
    weapon_count wts x = wts.countP (fun w => x.contains w) ∧
    weapon_count wts x.dedup = weapon_count wts x := by
  refine ⟨weapon_count_eq_countP wts x, ?_⟩
  simp only [weapon_count, contains_dedup]

/-- C4 counterexample: a readable dataset that does have the `inventory`
column but lacks the `x` column still aborts construction (with the
`KeyError` raised by `filter_rows_in_boundary`), so construction does not
fail *exactly* when `inventory` is missing. -/
theorem init_missing_x_cex :
    dfNoX.cols.contains "inventory" = true ∧
    ProcessGameState.init dfNoX sqVerts = .error (.keyError "x") := by
  decide

/-- C4 amended: among datasets providing the `x`, `y` and `z` columns
(which `filter_rows_in_boundary` reads first), construction succeeds if
and only if the `inventory` column is present — in particular, with
`inventory` present it succeeds for every per-row contents (null
inventories, items without the `class` key); a dataset missing `x`, `y`
or `z` also aborts construction. -/
theorem init_ok_iff (df : DataFrame) (verts : List Pt)
    (hx : df.cols.contains "x" = true)
    (hy : df.cols.contains "y" = true)
    (hz : df.cols.contains "z" = true) :
    (∃ gs, ProcessGameState.init df verts = .ok gs) ↔
      df.cols.contains "inventory" = true := by
  have hIB : ("in_boundary" == "inventory") = false := by decide
  constructor
  · rintro ⟨gs, hgs⟩
    by_contra hinv
    have hinv' : df.cols.contains "inventory" = false := by
      revert hinv
      cases df.cols.contains "inventory" <;> simp
    have hinv2 : (df.cols ++ ["in_boundary"]).contains "inventory"
        = false := by
      rw [contains_append, hinv']
      decide
    rw [ProcessGameState.init] at hgs
    simp only [filter_rows_in_boundary, hx, hy, hz, Bool.true_eq_false,
      if_false, extract_weapon_classes, Except.bind, Bind.bind] at hgs
    simp only [hinv2, if_true] at hgs
    cases hgs
  · intro hinv
    have hinv2 : (df.cols ++ ["in_boundary"]).contains "inventory"
        = true := by
      rw [contains_append, hinv]
      rfl
    simp only [ProcessGameState.init, filter_rows_in_boundary, hx, hy, hz,
      Bool.true_eq_false, if_false, extract_weapon_classes, Except.bind,
      Bind.bind, hinv2]
    exact ⟨_, rfl⟩

/-- C5 counterexample: on a table lacking the `seconds` column, with a row
matching the requested team and side, the final
`filtered_data['seconds'].mean()` sits outside the `try:` block and its
`KeyError` propagates to the caller instead of being returned as a
message. -/
theorem avg_timer_raises_cex :
    average_timer_with_weapons gsNoSec "A" "T" 0 []
      = .error (.keyError "seconds") := by
  decide


/-- C5 amended: `average_timer_with_weapons` catches every exception raised
inside its `try:` block (the team/side filter, the `weapon_classes` access
and the relaxation loop), returning a message value naming the missing key
(`KeyError`) or a generic message (other exceptions); the final emptiness
check and the mean of `seconds` run outside the guarded region, so the only
exception that can propagate to the caller is the `KeyError` for a missing
`seconds` column. -/
theorem avg_timer_error_spec (gs : ProcessGameState) (team side : String)
    (mw : Int) (wts : List String) :
    ((∃ v, average_timer_with_weapons gs team side mw wts = .ok v) ∨
      average_timer_with_weapons gs team side mw wts
        = .error (.keyError "seconds")) ∧
    (gs.data.cols.contains "team" = false →
      average_timer_with_weapons gs team side mw wts
        = .ok (.msg ("Error: " ++ pyKeyRepr "team"
            ++ " not found in data"))) := by
  constructor
  · by_cases h1 : "team" ∈ gs.data.cols
    · by_cases h2 : "side" ∈ gs.data.cols
      · by_cases h3 : "weapon_classes" ∈ gs.data.cols
        · cases h4 : (loopRun
              (withCounts (matchingRows gs team side) wts)
              (filterAtLeast (withCounts (matchingRows gs team side) wts)
                mw) mw).1.isEmpty with
          | true =>
            refine Or.inl
              ⟨.msg "No data available for the given conditions", ?_⟩
            simp [average_timer_with_weapons, average_timer_try,
              h1, h2, h3, List.isEmpty_iff.mp h4]
          | false =>
            have h4' := List.isEmpty_eq_false.mp h4
            by_cases h5 : "seconds" ∈ gs.data.cols
            · refine Or.inl ⟨.num (listMean ((loopRun
                  (withCounts (matchingRows gs team side) wts)
                  (filterAtLeast (withCounts (matchingRows gs team side)
                    wts) mw) mw).1.map (fun rw => rw.1.seconds))), ?_⟩
              simp [average_timer_with_weapons, average_timer_try,
                h1, h2, h3, h4', h5]
            · refine Or.inr ?_
              simp [average_timer_with_weapons, average_timer_try,
                h1, h2, h3, h4', h5]
        · refine Or.inl ⟨.msg ("Error: " ++ pyKeyRepr "weapon_classes"
              ++ " not found in data"), ?_⟩
          simp [average_timer_with_weapons, average_timer_try, h1, h2, h3]
      · refine Or.inl ⟨.msg ("Error: " ++ pyKeyRepr "side"
            ++ " not found in data"), ?_⟩
        simp [average_timer_with_weapons, average_timer_try, h1, h2]
    · refine Or.inl ⟨.msg ("Error: " ++ pyKeyRepr "team"
          ++ " not found in data"), ?_⟩
      simp [average_timer_with_weapons, average_timer_try, h1]
  · intro h
    simp [average_timer_with_weapons, average_timer_try,
      not_mem_of_contains_false h]

/-- C5 witness: on a state without the `team` column the guarded region's
`KeyError` comes back as a message value naming the key. -/
theorem avg_timer_error_spec_witness :
    gsNoTeam.data.cols.contains "team" = false ∧
    average_timer_with_weapons gsNoTeam "A" "T" 1 ["rifle"]
      = .ok (.msg ("Error: " ++ pyKeyRepr "team" ++ " not found in data")) :=
  ⟨by decide,
    (avg_timer_error_spec gsNoTeam "A" "T" 1 ["rifle"]).2 (by decide)⟩

/-- The rows of a successfully constructed state: the input rows, each
enriched in place with the `in_boundary` flag (containment and z-range)
and the extracted `weapon_classes`. -/
lemma init_destruct {df : DataFrame} {verts : List Pt}
    {gs : ProcessGameState}
    (hinit : ProcessGameState.init df verts = .ok gs) :
    gs.data.rows = df.rows.map (fun r =>
      { r with
        in_boundary := (⟨verts⟩ : Polygon).contains (r.x, r.y)
            && (decide (r.z ≥ 285) && decide (r.z ≤ 421)),
        weapon_classes := extract_classes r.inventory }) := by
  rw [ProcessGameState.init] at hinit
  by_cases hx : "x" ∈ df.cols
  case neg =>
    simp [filter_rows_in_boundary, hx, Except.bind, Bind.bind] at hinit
  case pos =>
  by_cases hy : "y" ∈ df.cols
  case neg =>
    simp [filter_rows_in_boundary, hx, hy, Except.bind, Bind.bind] at hinit
  case pos =>
  by_cases hz : "z" ∈ df.cols
  case neg =>
    simp [filter_rows_in_boundary, hx, hy, hz, Except.bind,
      Bind.bind] at hinit
  case pos =>
  by_cases hinv : "inventory" ∈ df.cols ++ ["in_boundary"]
  case neg =>
    simp [filter_rows_in_boundary, extract_weapon_classes, hx, hy, hz,
      hinv, Except.bind, Bind.bind] at hinit
  case pos =>
    simp [filter_rows_in_boundary, extract_weapon_classes, hx, hy, hz,
      hinv, Except.bind, Bind.bind] at hinit
    subst hinit
    simp [List.map_map]

/-- C1: after construction, a row's `in_boundary` is true iff its (x, y)
point is strictly inside the boundary polygon — a point on an edge or at a
vertex counts as outside under the modelled boundary-exclusive containment
— and 285 ≤ z ≤ 421 with both endpoints inclusive; concretely, on `dfC`
with the square polygon the five rows (inside with z = 284.999; inside
with z = 285; inside with z = 421; on an edge with z = 300; at a vertex
with z = 300) come out false, true, true, false, false. -/
theorem in_boundary_spec :
    (∀ (df : DataFrame) (verts : List Pt) (gs : ProcessGameState),
      ProcessGameState.init df verts = .ok gs →
      ∀ r ∈ gs.data.rows,
        (r.in_boundary = true ↔
          ((⟨verts⟩ : Polygon).contains (r.x, r.y) = true ∧
            285 ≤ r.z ∧ r.z ≤ 421))) ∧
    ProcessGameState.init dfC sqVerts = .ok gsC ∧
    gsC.data.rows.map Row.in_boundary
      = [false, true, true, false, false] := by
  refine ⟨?_, init_dfC, by decide⟩
  intro df verts gs hinit r hr
  rw [init_destruct hinit] at hr
  obtain ⟨r0, hr0, rfl⟩ := List.mem_map.mp hr
  simp [Bool.and_eq_true, decide_eq_true_eq, ge_iff_le]

/-- C1 witness: the concrete row at z = 285 inside the square satisfies
the equivalence, via the constructed concrete state. -/
theorem in_boundary_spec_witness :
    ProcessGameState.init dfC sqVerts = .ok gsC ∧
    rowBE ∈ gsC.data.rows ∧
    (rowBE.in_boundary = true ↔
      ((⟨sqVerts⟩ : Polygon).contains (rowBE.x, rowBE.y) = true ∧
        285 ≤ rowBE.z ∧ rowBE.z ≤ 421)) :=
  ⟨init_dfC, List.Mem.tail _ (List.Mem.head _),
    in_boundary_spec.1 dfC sqVerts gsC init_dfC _
      (List.Mem.tail _ (List.Mem.head _))⟩

/-- C3: after construction, every row's `weapon_classes` is a (possibly
empty) list — by type it is never null: the empty list when the row's
inventory is null, the empty list when any inventory item lacks the
`class` key (the whole row's extraction collapses, not a partial list),
and otherwise exactly the in-order list of the items' `class` values. -/
theorem weapon_classes_spec (df : DataFrame) (verts : List Pt)
    (gs : ProcessGameState)
    (hinit : ProcessGameState.init df verts = .ok gs) :
    ∀ r ∈ gs.data.rows,
      (r.inventory = none → r.weapon_classes = []) ∧
      (∀ items : List Item, r.inventory = some items →
        ((∃ it ∈ items, it.cls = none) → r.weapon_classes = []) ∧
        ((∀ it ∈ items, it.cls ≠ none) →
          r.weapon_classes = items.filterMap Item.cls)) := by
  intro r hr
  rw [init_destruct hinit] at hr
  obtain ⟨r0, hr0, rfl⟩ := List.mem_map.mp hr
  refine ⟨?_, ?_⟩
  · intro hnone
    have hnone' : r0.inventory = none := hnone
    simp [extract_classes, hnone']
  · intro items hsome
    have hsome' : r0.inventory = some items := hsome
    refine ⟨?_, ?_⟩
    · intro hmiss
      simp [extract_classes, hsome', classesOf_eq_none hmiss]
    · intro hall
      simp [extract_classes, hsome', classesOf_eq_some hall]

/-- C3 witness: the concrete row whose second inventory item lacks the
`class` key is governed by the extraction contract, via the constructed
state. -/
theorem weapon_classes_spec_witness :
    ProcessGameState.init dfC sqVerts = .ok gsC ∧
    rowCE ∈ gsC.data.rows ∧
    ((rowCE.inventory = none → rowCE.weapon_classes = []) ∧
      (∀ items : List Item, rowCE.inventory = some items →
        ((∃ it ∈ items, it.cls = none) → rowCE.weapon_classes = []) ∧
        ((∀ it ∈ items, it.cls ≠ none) →
          rowCE.weapon_classes = items.filterMap Item.cls))) :=
  ⟨init_dfC, List.Mem.tail _ (List.Mem.tail _ (List.Mem.head _)),
    weapon_classes_spec dfC sqVerts gsC init_dfC _
      (List.Mem.tail _ (List.Mem.tail _ (List.Mem.head _)))⟩

/-- C4 amended witness: the concrete raw dataset has `x`, `y` and `z`, and
its construction succeeds exactly because `inventory` is present. -/
theorem init_ok_iff_witness :
    dfC.cols.contains "x" = true ∧
    ((∃ gs, ProcessGameState.init dfC sqVerts = .ok gs) ↔
      dfC.cols.contains "inventory" = true) :=
  ⟨by decide, init_ok_iff dfC sqVerts (by decide) (by decide) (by decide)⟩

/-- C6: `team_strategy` returns the no-data sentinel iff no row matches
(team, side) exactly; on a non-empty match it returns the mean of
`in_boundary` with true = 1 and false = 0 — in particular 0 (not the
sentinel) when matching rows exist but none is in the zone, and exactly 1
when all matching rows are in the zone. -/
theorem team_strategy_spec (gs : ProcessGameState) (team side : String)
    (hcols : ["team", "side", "in_boundary"] ⊆ gs.data.cols) :
    (team_strategy gs team side =
        .ok (.msg "No data available for the given team and side") ↔
      matchingRows gs team side = []) ∧
    (matchingRows gs team side ≠ [] →
      team_strategy gs team side = .ok (.num (listMean
        ((matchingRows gs team side).map
          (fun r => if r.in_boundary = true then (1 : ℚ) else 0))))) ∧
    (matchingRows gs team side ≠ [] →
      (∀ r ∈ matchingRows gs team side, r.in_boundary = false) →
      team_strategy gs team side = .ok (.num 0)) ∧
    (matchingRows gs team side ≠ [] →
      (∀ r ∈ matchingRows gs team side, r.in_boundary = true) →
      team_strategy gs team side = .ok (.num 1)) := by
  have h1 : "team" ∈ gs.data.cols := hcols (by simp)
  have h2 : "side" ∈ gs.data.cols := hcols (by simp)
  have h3 : "in_boundary" ∈ gs.data.cols := hcols (by simp)
  by_cases hmr : matchingRows gs team side = []
  · refine ⟨⟨fun _ => hmr, fun _ => ?_⟩, fun h => absurd hmr h,
      fun h => absurd hmr h, fun h => absurd hmr h⟩
    simp [team_strategy, h1, h2, h3, hmr]
  · have hres : team_strategy gs team side = .ok (.num (listMean
        ((matchingRows gs team side).map
          (fun r => if r.in_boundary = true then (1 : ℚ) else 0)))) := by
      simp [team_strategy, h1, h2, h3, List.isEmpty_eq_false.mpr hmr]
    refine ⟨⟨fun h => ?_, fun h => absurd h hmr⟩, fun _ => hres,
      fun _ hall => ?_, fun _ hall => ?_⟩
    · rw [hres] at h
      exact absurd h (by simp)
    · rw [hres]
      have hmean : listMean ((matchingRows gs team side).map
          (fun r => if r.in_boundary = true then (1 : ℚ) else 0)) = 0 := by
        rw [listMean, sum_indicator_all_false _ hall, zero_div]
      rw [hmean]
    · rw [hres]
      have hlen : (matchingRows gs team side).length ≠ 0 :=
        fun h => hmr (List.length_eq_zero.mp h)
      have hmean : listMean ((matchingRows gs team side).map
          (fun r => if r.in_boundary = true then (1 : ℚ) else 0)) = 1 := by
        rw [listMean, sum_indicator_all_true _ hall, List.length_map]
        exact div_self (Nat.cast_ne_zero.mpr hlen)
      rw [hmean]

/-- C6 witness: on the concrete enriched state, team A / side T has
matching rows, so the contract instantiates there. -/
theorem team_strategy_spec_witness :
    (["team", "side", "in_boundary"] ⊆ gsQ.data.cols) ∧
    ((team_strategy gsQ "A" "T" =
        .ok (.msg "No data available for the given team and side") ↔
      matchingRows gsQ "A" "T" = []) ∧
    (matchingRows gsQ "A" "T" ≠ [] →
      team_strategy gsQ "A" "T" = .ok (.num (listMean
        ((matchingRows gsQ "A" "T").map
          (fun r => if r.in_boundary = true then (1 : ℚ) else 0))))) ∧
    (matchingRows gsQ "A" "T" ≠ [] →
      (∀ r ∈ matchingRows gsQ "A" "T", r.in_boundary = false) →
      team_strategy gsQ "A" "T" = .ok (.num 0)) ∧
    (matchingRows gsQ "A" "T" ≠ [] →
      (∀ r ∈ matchingRows gsQ "A" "T", r.in_boundary = true) →
      team_strategy gsQ "A" "T" = .ok (.num 1))) :=
  ⟨by decide, team_strategy_spec gsQ "A" "T" (by decide)⟩

/-- C2: under the documented precondition `min_weapons ≥ 0` (and the
standard schema), `average_timer_with_weapons` returns the no-data
sentinel exactly on an empty (team, side) subset, and otherwise the mean
of `seconds` over the rows whose weapon count is at least `m`, where `m`
is the largest integer in `[0, min_weapons]` whose filtered subset is
non-empty (every threshold strictly above `m` filters to empty). -/
theorem average_timer_spec (gs : ProcessGameState) (team side : String)
    (min_weapons : Int) (weapon_types : List String)
    (hcols : ["team", "side", "weapon_classes", "seconds"] ⊆ gs.data.cols)
    (hmw : 0 ≤ min_weapons) :
    (matchingRows gs team side = [] →
      average_timer_with_weapons gs team side min_weapons weapon_types
        = .ok (.msg "No data available for the given conditions")) ∧
    (matchingRows gs team side ≠ [] →
      ∃ m : Int, 0 ≤ m ∧ m ≤ min_weapons ∧
        filterAtLeast (withCounts (matchingRows gs team side) weapon_types)
          m ≠ [] ∧
        (∀ k : Int, m < k → k ≤ min_weapons →
          filterAtLeast (withCounts (matchingRows gs team side)
            weapon_types) k = []) ∧
        average_timer_with_weapons gs team side min_weapons weapon_types
          = .ok (.num (listMean ((filterAtLeast
              (withCounts (matchingRows gs team side) weapon_types) m).map
              (fun rw => rw.1.seconds))))) := by
  have h1 : "team" ∈ gs.data.cols := hcols (by simp)
  have h2 : "side" ∈ gs.data.cols := hcols (by simp)
  have h3 : "weapon_classes" ∈ gs.data.cols := hcols (by simp)
  have h4 : "seconds" ∈ gs.data.cols := hcols (by simp)
  obtain ⟨s1, s2, s3, s4, s5⟩ := loopRun_spec
    (withCounts (matchingRows gs team side) weapon_types)
    min_weapons.toNat min_weapons (le_refl _)
  obtain ⟨f', m', hfm⟩ : ∃ f' m',
      loopRun (withCounts (matchingRows gs team side) weapon_types)
        (filterAtLeast (withCounts (matchingRows gs team side)
          weapon_types) min_weapons) min_weapons = (f', m') := ⟨_, _, rfl⟩
  simp only [hfm] at s1 s2 s3 s4 s5
  constructor
  · intro hmr
    have htd0 : withCounts (matchingRows gs team side) weapon_types
        = [] := by
      rw [hmr]
      rfl
    have hf0 : f' = [] := by
      rw [s1, htd0]
      rfl
    simp [average_timer_with_weapons, average_timer_try, h1, h2, h3,
      hfm, hf0]
  · intro hmr
    have htdne : withCounts (matchingRows gs team side) weapon_types
        ≠ [] := fun h => hmr (List.map_eq_nil_iff.mp h)
    have hf'ne : f' ≠ [] := by
      rcases s4 with h | h
      · exact h
      · have hz : m' = 0 := le_antisymm h (s3 hmw)
        rw [s1, hz, filterAtLeast_zero]
        exact htdne
    refine ⟨m', s3 hmw, s2, ?_, s5, ?_⟩
    · rw [← s1]
      exact hf'ne
    · simp [average_timer_with_weapons, average_timer_try, h1, h2, h3, h4,
        hfm, List.isEmpty_eq_false.mpr hf'ne, ← s1]

/-- C2 witness: on the concrete enriched state, requesting at least 3 of
rifle/pistol for team A / side T exercises the relaxation (only counts
2, 1, 0 exist). -/
theorem average_timer_spec_witness :
    (["team", "side", "weapon_classes", "seconds"] ⊆ gsQ.data.cols) ∧
    (0 ≤ (3 : Int)) ∧
    ((matchingRows gsQ "A" "T" = [] →
      average_timer_with_weapons gsQ "A" "T" 3 ["rifle", "pistol"]
        = .ok (.msg "No data available for the given conditions")) ∧
    (matchingRows gsQ "A" "T" ≠ [] →
      ∃ m : Int, 0 ≤ m ∧ m ≤ 3 ∧
        filterAtLeast (withCounts (matchingRows gsQ "A" "T")
          ["rifle", "pistol"]) m ≠ [] ∧
        (∀ k : Int, m < k → k ≤ 3 →
          filterAtLeast (withCounts (matchingRows gsQ "A" "T")
            ["rifle", "pistol"]) k = []) ∧
        average_timer_with_weapons gsQ "A" "T" 3 ["rifle", "pistol"]
          = .ok (.num (listMean ((filterAtLeast
              (withCounts (matchingRows gsQ "A" "T") ["rifle", "pistol"])
              m).map (fun rw => rw.1.seconds)))))) :=
  ⟨by decide, by decide,
    average_timer_spec gsQ "A" "T" 3 ["rifle", "pistol"]
      (by decide) (by decide)⟩

/-- C7: `heatmap_coordinates` returns the no-data sentinel exactly when no
row matches (team, side) with `in_boundary` true; otherwise it returns the
grid whose 10×10 bins are cut from the filtered subset's own x/y minima
and maxima (not the polygon's bounding box), and the counts over all
10×10 cells sum to the number of filtered rows. -/
theorem heatmap_spec (gs : ProcessGameState) (team side : String)
    (hcols : ["team", "side", "in_boundary", "x", "y"] ⊆ gs.data.cols) :
    (heatmap_coordinates gs team side =
        .ok (.msg "No data available for the given team and side") ↔
      matchingInZone gs team side = []) ∧
    (matchingInZone gs team side ≠ [] →
      heatmap_coordinates gs team side =
        .ok (.grid (heatGrid (matchingInZone gs team side))) ∧
      (∑ i : Fin 10, ∑ j : Fin 10,
          heatGrid (matchingInZone gs team side) i j)
        = (matchingInZone gs team side).length) := by
  have h1 : "team" ∈ gs.data.cols := hcols (by simp)
  have h2 : "side" ∈ gs.data.cols := hcols (by simp)
  have h3 : "in_boundary" ∈ gs.data.cols := hcols (by simp)
  have h4 : "x" ∈ gs.data.cols := hcols (by simp)
  have h5 : "y" ∈ gs.data.cols := hcols (by simp)
  by_cases hmz : matchingInZone gs team side = []
  · refine ⟨⟨fun _ => hmz, fun _ => ?_⟩, fun h => absurd hmz h⟩
    simp [heatmap_coordinates, h1, h2, h3, hmz]
  · have hres : heatmap_coordinates gs team side =
        .ok (.grid (heatGrid (matchingInZone gs team side))) := by
      simp [heatmap_coordinates, h1, h2, h3, h4, h5,
        List.isEmpty_eq_false.mpr hmz]
    refine ⟨⟨fun h => ?_, fun h => absurd h hmz⟩, fun _ => ⟨hres, ?_⟩⟩
    · rw [hres] at h
      exact absurd h (by simp)
    · have hxb : ∀ r ∈ matchingInZone gs team side,
          (cutBinIdx (listMin ((matchingInZone gs team side).map Row.x))
            (listMax ((matchingInZone gs team side).map Row.x))
            r.x).isSome = true := fun r hr =>
        cutBinIdx_isSome (listMin_le (List.mem_map_of_mem Row.x hr))
          (le_listMax (List.mem_map_of_mem Row.x hr))
      have hyb : ∀ r ∈ matchingInZone gs team side,
          (cutBinIdx (listMin ((matchingInZone gs team side).map Row.y))
            (listMax ((matchingInZone gs team side).map Row.y))
            r.y).isSome = true := fun r hr =>
        cutBinIdx_isSome (listMin_le (List.mem_map_of_mem Row.y hr))
          (le_listMax (List.mem_map_of_mem Row.y hr))
      have hall : ∀ r ∈ matchingInZone gs team side,
          (cellIdx (listMin ((matchingInZone gs team side).map Row.x))
            (listMax ((matchingInZone gs team side).map Row.x))
            (listMin ((matchingInZone gs team side).map Row.y))
            (listMax ((matchingInZone gs team side).map Row.y))
            r).isSome = true :=
        fun r hr => cellIdx_isSome (hxb r hr) (hyb r hr)
      have hsum := sum_filter_cell (matchingInZone gs team side) _ hall
      rw [Fintype.sum_prod_type] at hsum
      exact Eq.trans (Finset.sum_congr rfl (fun i _ =>
        Finset.sum_congr rfl (fun j _ => (rfl :
          heatGrid (matchingInZone gs team side) i j = _)))) hsum

/-- C7 witness: on the concrete enriched state, team A / side T has rows
in the zone, so the binning contract instantiates there. -/
theorem heatmap_spec_witness :
    (["team", "side", "in_boundary", "x", "y"] ⊆ gsQ.data.cols) ∧
    ((heatmap_coordinates gsQ "A" "T" =
        .ok (.msg "No data available for the given team and side") ↔
      matchingInZone gsQ "A" "T" = []) ∧
    (matchingInZone gsQ "A" "T" ≠ [] →
      heatmap_coordinates gsQ "A" "T" =
        .ok (.grid (heatGrid (matchingInZone gsQ "A" "T"))) ∧
      (∑ i : Fin 10, ∑ j : Fin 10, heatGrid (matchingInZone gsQ "A" "T") i j)
        = (matchingInZone gsQ "A" "T").length)) :=
  ⟨by decide, heatmap_spec gsQ "A" "T" (by decide)⟩

/-- C8: on a non-empty filtered subset the returned grid is a total lookup
over all 10×10 (x-bin, y-bin) combinations yielding an integer count —
the number of filtered rows binned into that cell — and an integer 0 (not
null or an absent entry) for every combination with no observations. -/
theorem heatmap_lookup_spec (gs : ProcessGameState) (team side : String)
    (hcols : ["team", "side", "in_boundary", "x", "y"] ⊆ gs.data.cols)
    (hne : matchingInZone gs team side ≠ []) :
    ∃ g : Fin 10 → Fin 10 → Nat,
      heatmap_coordinates gs team side = .ok (.grid g) ∧
      (∀ i j : Fin 10, g i j = ((matchingInZone gs team side).filter
        (fun r =>
          cellIdx (listMin ((matchingInZone gs team side).map Row.x))
            (listMax ((matchingInZone gs team side).map Row.x))
            (listMin ((matchingInZone gs team side).map Row.y))
            (listMax ((matchingInZone gs team side).map Row.y)) r
            == some (i, j))).length) ∧
      (∀ i j : Fin 10, (∀ r ∈ matchingInZone gs team side,
          cellIdx (listMin ((matchingInZone gs team side).map Row.x))
            (listMax ((matchingInZone gs team side).map Row.x))
            (listMin ((matchingInZone gs team side).map Row.y))
            (listMax ((matchingInZone gs team side).map Row.y)) r
            ≠ some (i, j)) → g i j = 0) := by
  have h1 : "team" ∈ gs.data.cols := hcols (by simp)
  have h2 : "side" ∈ gs.data.cols := hcols (by simp)
  have h3 : "in_boundary" ∈ gs.data.cols := hcols (by simp)
  have h4 : "x" ∈ gs.data.cols := hcols (by simp)
  have h5 : "y" ∈ gs.data.cols := hcols (by simp)
  refine ⟨heatGrid (matchingInZone gs team side), ?_, fun i j => rfl, ?_⟩
  · simp [heatmap_coordinates, h1, h2, h3, h4, h5,
      List.isEmpty_eq_false.mpr hne]
  · intro i j hno
    have hfil : (matchingInZone gs team side).filter
        (fun r =>
          cellIdx (listMin ((matchingInZone gs team side).map Row.x))
            (listMax ((matchingInZone gs team side).map Row.x))
            (listMin ((matchingInZone gs team side).map Row.y))
            (listMax ((matchingInZone gs team side).map Row.y)) r
            == some (i, j)) = [] :=
      List.filter_eq_nil_iff.mpr (fun r hr => by
        simpa [beq_iff_eq] using hno r hr)
    simp [heatGrid, hfil]

/-- C8 witness: on the concrete enriched state, team A / side T has rows
in the zone, so the lookup contract instantiates there. -/
theorem heatmap_lookup_spec_witness :
    (["team", "side", "in_boundary", "x", "y"] ⊆ gsQ.data.cols) ∧
    matchingInZone gsQ "A" "T" ≠ [] ∧
    (∃ g : Fin 10 → Fin 10 → Nat,
      heatmap_coordinates gsQ "A" "T" = .ok (.grid g) ∧
      (∀ i j : Fin 10, g i j = ((matchingInZone gsQ "A" "T").filter
        (fun r =>
          cellIdx (listMin ((matchingInZone gsQ "A" "T").map Row.x))
            (listMax ((matchingInZone gsQ "A" "T").map Row.x))
            (listMin ((matchingInZone gsQ "A" "T").map Row.y))
            (listMax ((matchingInZone gsQ "A" "T").map Row.y)) r
            == some (i, j))).length) ∧
      (∀ i j : Fin 10, (∀ r ∈ matchingInZone gsQ "A" "T",
          cellIdx (listMin ((matchingInZone gsQ "A" "T").map Row.x))
            (listMax ((matchingInZone gsQ "A" "T").map Row.x))
            (listMin ((matchingInZone gsQ "A" "T").map Row.y))
            (listMax ((matchingInZone gsQ "A" "T").map Row.y)) r
            ≠ some (i, j)) → g i j = 0)) :=
  ⟨by decide, by decide,
    heatmap_lookup_spec gsQ "A" "T" (by decide) (by decide)⟩
